import Mathlib

/-!
Verification development for the Assisted Application Engine
(`backend/services/linkedin_assistant.py` together with
`backend/utils/encryption.py`).

The Python source is shallowly embedded:

* pure helpers (`find_answer`, `_map_label_to_value`, `_calc_exp`,
  `_learn_new_answers`, `_rate_limit_check`, `encrypt_value`,
  `decrypt_value`) become Lean functions;
* the browser, the database and the fuzzy scorer from `thefuzz` are
  external collaborators: they are modelled as explicit parameters
  (an oracle describing what each form step shows, an abstract
  similarity scorer, an abstract Fernet cipher);
* the driver `autofill_easy_apply_modal` becomes a state-machine run
  that threads the rate-limit state and records a trace of
  externally visible effects (browser actions, question-bank
  fetches, upserts, sleeps);
* Python wall-clock floats are modelled as exact integer ticks: the
  rate logic only uses `+`, `-` and `<`, so the control flow is
  preserved.

All definitions are computable and kernel-reducible so that closed
theorems can be settled with `decide`.
-/

namespace JobEngine

/-! ### Python string primitives

Python's `in`, `str.lower`, `str.strip`, `str.split(' ')`,
`str.startswith` and `str(int)` are modelled over `List Char` with
structural recursion so the kernel can evaluate them.
-/

/-- Boolean list-prefix test (`pat` begins `s`). -/
def listPrefixB : List Char → List Char → Bool
  | [], _ => true
  | _ :: _, [] => false
  | a :: as, b :: bs => a = b && listPrefixB as bs

/-- Boolean substring-occurrence test over character lists. -/
def listInfixB (pat : List Char) : List Char → Bool
  | [] => listPrefixB pat []
  | c :: rest => listPrefixB pat (c :: rest) || listInfixB pat rest

/-- Python's `pat in s` on strings. -/
def pyIn (pat s : String) : Bool := listInfixB pat.data s.data

/-- Python's `s.startswith(pre)`. -/
def pyStartsWith (s pre : String) : Bool := listPrefixB pre.data s.data

/-- ASCII lower-casing of one character (the labels the engine
handles are ASCII; Python's full-Unicode `str.lower` agrees there). -/
def charLower (c : Char) : Char :=
  if 65 ≤ c.toNat ∧ c.toNat ≤ 90 then Char.ofNat (c.toNat + 32) else c

/-- Python's `s.lower()` (ASCII fragment). -/
def strLower (s : String) : String := ⟨s.data.map charLower⟩

/-- Whitespace recognised by Python's `str.strip()`. -/
def isPySpace (c : Char) : Bool :=
  c = ' ' || c = '\t' || c = '\n' || c = '\r' || c = '\x0b' || c = '\x0c'

/-- Python's `s.strip()`. -/
def strStrip (s : String) : String :=
  ⟨((s.data.dropWhile isPySpace).reverse.dropWhile isPySpace).reverse⟩

/-- Python's `s.split(' ')` (split at every single space). -/
def splitSpace : List Char → List (List Char)
  | [] => [[]]
  | c :: rest =>
    if c = ' ' then [] :: splitSpace rest
    else
      match splitSpace rest with
      | [] => [[c]]
      | g :: gs => (c :: g) :: gs

/-- Python's `s.split(' ')` on strings. -/
def pySplitSpace (s : String) : List String := (splitSpace s.data).map String.mk

/-- Decimal digit character (reuses core's match-based table). -/
def decDigit (n : Nat) : Char := Nat.digitChar n

/-- Fuel-driven decimal printer for naturals (the fuel `n + 1` always
suffices, see `natDec`). -/
def natDecAux : Nat → Nat → List Char
  | 0, _ => []
  | fuel + 1, n =>
    if n < 10 then [decDigit n]
    else natDecAux fuel (n / 10) ++ [decDigit (n % 10)]

/-- Python's `str(n)` for a natural number. -/
def natDec (n : Nat) : String := ⟨natDecAux (n + 1) n⟩

/-- Python's `str(i)` for an integer. -/
def intDec (i : Int) : String :=
  if i < 0 then ⟨'-' :: (natDec i.natAbs).data⟩ else natDec i.toNat

/-- Digit-string parser: `some` of the value when every character is
a decimal digit and the list is non-empty. -/
def digitsToNat : List Char → Option Nat
  | [] => none
  | [c] => if c.isDigit then some (c.toNat - 48) else none
  | c :: rest =>
    if c.isDigit then
      (digitsToNat rest).map (fun m => (c.toNat - 48) * 10 ^ rest.length + m)
    else none

/-- Python's `int(s)`: optional surrounding whitespace, optional
sign, then decimal digits; anything else raises (`none`). -/
def pyToInt? (s : String) : Option Int :=
  let cs := ((s.data.dropWhile isPySpace).reverse.dropWhile isPySpace).reverse
  match cs with
  | '-' :: rest => (digitsToNat rest).map (fun n => -(n : Int))
  | '+' :: rest => (digitsToNat rest).map (fun n => (n : Int))
  | _ => (digitsToNat cs).map (fun n => (n : Int))

/-! ### Data model -/

/-- Dynamically-typed values as stored in the profile record's JSON
columns (`work_experience`, `skills`). -/
inductive PyVal where
  | str (s : String)
  | int (i : Int)
  | list (xs : List PyVal)
  | dict (kvs : List (String × PyVal))
  | none

/-- Python's `str(v)`; for `list`/`dict` only the fact that the
rendering opens with a non-digit bracket ever matters (it makes the
`int(str(...)[:4])` parse in `calc_exp` fail), so the rendering of
their elements is abbreviated. -/
def pyStr : PyVal → String
  | .str s => s
  | .int i => intDec i
  | .list _ => "[...]"
  | .dict _ => "\x7b...\x7d"
  | .none => "None"

/-- First-match association lookup (Python `dict` access). -/
def lookupPy (kvs : List (String × PyVal)) (k : String) : Option PyVal :=
  (kvs.find? (fun p => p.1 = k)).map (·.2)

/-- User profile row, as read by the engine.  `phone_number` and
`email` are `Option` because `profile.get` yields `None` when the
column is missing; `full_name` is read with default `''`. -/
structure Profile where
  phone_number : Option String
  email : Option String
  full_name : String
  work_experience : PyVal
  skills : PyVal

/-- One row of the `linkedin_question_bank` table. -/
structure QBRow where
  question_text : String
  answer_text : String
  category : String
deriving DecidableEq, Repr

/-- The fixed sensitive-keyword set (module constant
`SENSITIVE_KEYWORDS`). -/
def SENSITIVE_KEYWORDS : List String :=
  ["salary", "compensation", "visa", "work authorization", "relocation",
   "notice period", "citizenship"]

/-- Python truthiness of an optional string (`None` and `""` are
falsy). -/
def truthy : Option String → Bool
  | Option.none => false
  | some s => s ≠ ""

/-! ### Encryption (`backend/utils/encryption.py`)

A Fernet cipher suite is abstracted as a pair of functions; `enc`
total (Fernet encryption of a UTF-8 string does not raise), `dec`
partial (`InvalidToken`).  `Option Cipher` is `get_cipher_suite()`:
`none` when `ENCRYPTION_KEY` is unset or invalid.
-/

/-- Abstract Fernet cipher suite. -/
structure Cipher where
  enc : String → String
  dec : String → Option String

/-- `encrypt_value`: `None` for falsy input; plaintext fallback when
no cipher is configured; values already carrying the Fernet marker
`gAAAAA` are returned untouched. -/
def encrypt_value (cipher : Option Cipher) (value : String) : Option String :=
  if value = "" then Option.none
  else
    match cipher with
    | Option.none => some value
    | some c => if pyStartsWith value "gAAAAA" then some value else some (c.enc value)

/-- `decrypt_value`: `None` for falsy input; plaintext passthrough
when no cipher is configured or decryption fails. -/
def decrypt_value (cipher : Option Cipher) (value : String) : Option String :=
  if value = "" then Option.none
  else
    match cipher with
    | Option.none => some value
    | some c =>
      match c.dec value with
      | some d => some d
      | Option.none => some value

/-! ### Answer resolver (`_map_label_to_value`, `_calc_exp`,
`find_answer` inside `_fill_modal_fields`) -/

/-- `_map_label_to_value`: deterministic keyword → profile-field
rules. -/
def map_label_to_value (label : String) (p : Profile) : Option String :=
  let l := strLower label
  if pyIn "phone" l || pyIn "mobile" l then p.phone_number
  else if pyIn "email" l then p.email
  else if pyIn "first name" l then some ((pySplitSpace p.full_name).headD "")
  else if pyIn "last name" l then
    let parts := pySplitSpace p.full_name
    some (if 1 < parts.length then parts.getLastD "" else "")
  else Option.none

/-- The `years` accumulator of `_calc_exp` after the guarded
start-date block.  The `try/except: pass` around the parse is
modelled by collapsing every failing shape (non-list
`work_experience`, non-dict last element, missing key, unparsable
year prefix) to the untouched `years = 0`. -/
def calcYears (p : Profile) : Int :=
  match p.work_experience with
  | .list xs =>
    if xs.isEmpty then 0
    else
      match xs.getLast? with
      | some (.dict kvs) =>
        match lookupPy kvs "start_date" with
        | some v =>
          match pyToInt? ⟨(pyStr v).data.take 4⟩ with
          | some y => max 1 (2026 - y)
          | Option.none => 0
        | Option.none => 0
      | _ => 0
  | _ => 0

/-- `_calc_exp`: derived years-of-experience answer; when the
start-date path yielded nothing, fall back to the skill-count
heuristic. -/
def calc_exp (p : Profile) : String :=
  if calcYears p = 0 then
    match p.skills with
    | .list ss => natDec (Nat.max 1 (ss.length / 2))
    | _ => natDec 3
  else intDec (calcYears p)

/-- `thefuzz.process.extractOne query choices`: best-scoring choice;
on ties the first choice wins (Python's `max` keeps the first
maximal element).  The scorer (WRatio plus its default processor) is
an abstract parameter. -/
def extractOne (sim : String → String → Nat) (query : String) :
    List String → Option (String × Nat)
  | [] => Option.none
  | c :: cs =>
    some (cs.foldl
      (fun b c' => let s' := sim query c'; if b.2 < s' then (c', s') else b)
      (c, sim query c))

/-- Everything `find_answer` closes over: the question-bank snapshot
fetched at the top of `_fill_modal_fields`, the profile, the fuzzy
scorer and the cipher suite. -/
structure ResolveCtx where
  qb : List QBRow
  profile : Profile
  sim : String → String → Nat
  cipher : Option Cipher

/-- `find_answer label` from `_fill_modal_fields`: returns the
resolved value (`none` = leave blank) together with the labels
appended to the `skipped` side channel by this call.  Pipeline:
empty-label guard, sensitive veto, profile mapping, fuzzy
question-bank match (strict `score > 80`), derived experience,
decryption pass. -/
def find_answer (ctx : ResolveCtx) (label_text : String) :
    Option String × List String :=
  if label_text = "" then (Option.none, [])
  else if SENSITIVE_KEYWORDS.any (fun kw => pyIn kw (strLower label_text)) then
    (Option.none, [label_text])
  else
    let ans0 := map_label_to_value label_text ctx.profile
    let ans1 :=
      if truthy ans0 = false ∧ ctx.qb ≠ [] then
        match extractOne ctx.sim label_text (ctx.qb.map QBRow.question_text) with
        | some (best, score) =>
          if 80 < score then
            match ctx.qb.find? (fun r => r.question_text = best) with
            | some row => some row.answer_text
            | Option.none => ans0
          else ans0
        | Option.none => ans0
      else ans0
    let ans2 :=
      if truthy ans1 = false ∧ pyIn "years" (strLower label_text) = true ∧
          pyIn "experience" (strLower label_text) = true then
        some (calc_exp ctx.profile)
      else ans1
    let ans3 :=
      match ans2 with
      | some a =>
        if pyStartsWith a "gAAAAA" then
          match decrypt_value ctx.cipher a with
          | some d => if d ≠ "" then some d else some a
          | Option.none => some a
        else some a
      | Option.none => Option.none
    (ans3, [])

/-! ### Learning adapter (`_learn_new_answers`)

The upserts executed against `linkedin_question_bank` are collected
in order.  The `try/except` around `encrypt_value` at the call site
is modelled by abstracting the encryptor as a fallible function
(`Except`: `error` = exception raised); instantiating it with the
real `encrypt_value` — which catches its own exceptions — gives the
never-failing `encryptOf`.  The Python handler for an encryption
exception is a bare `return`, which ends the whole pass: `aborted`
records that, and the upserts already issued before the abort
stand. -/

/-- One row written to `linkedin_question_bank`. -/
structure Upsert where
  question_text : String
  answer_text : String
  category : String
deriving DecidableEq, Repr

/-- Python `before.get(label, "")`. -/
def pyGet (d : List (String × String)) (k : String) : String :=
  match d.find? (fun p => p.1 = k) with
  | some p => p.2
  | Option.none => ""

/-- Category keyword heuristic of `_learn_new_answers`. -/
def learnCategory (label : String) : String :=
  let l := strLower label
  if pyIn "salary" l || pyIn "pay" l || pyIn "compensation" l then "salary"
  else if pyIn "visa" l || pyIn "sponsor" l || pyIn "citizen" l then "visa"
  else if pyIn "experience" l || pyIn "years" l then "experience"
  else "general"

/-- The condition under which `_learn_new_answers` encrypts and
forces category `sensitive`. -/
def sensCond (label : String) : Bool :=
  learnCategory label = "salary" || learnCategory label = "visa" ||
    SENSITIVE_KEYWORDS.any (fun kw => pyIn kw (strLower label))

/-- Result of one learning pass. -/
structure LearnResult where
  upserts : List Upsert
  aborted : Bool
deriving DecidableEq, Repr

/-- `_learn_new_answers` over the `after.items()` list: a field is
learned when its new value is truthy and differs from the `before`
value; sensitive fields go through the encryptor, and an encryptor
exception makes the whole pass return at that point.  A failure of
the database upsert itself is logged and the loop continues, so the
upsert is modelled as always succeeding. -/
def learn_new_answers (encryptF : String → Except String String)
    (before : List (String × String)) : List (String × String) → LearnResult
  | [] => ⟨[], false⟩
  | (label, new_val) :: rest =>
    if new_val ≠ "" ∧ new_val ≠ pyGet before label then
      if sensCond label then
        match encryptF new_val with
        | .error _ => ⟨[], true⟩
        | .ok save_val =>
          let r := learn_new_answers encryptF before rest
          ⟨⟨strStrip label, save_val, "sensitive"⟩ :: r.upserts, r.aborted⟩
      else
        let r := learn_new_answers encryptF before rest
        ⟨⟨strStrip label, new_val, learnCategory label⟩ :: r.upserts, r.aborted⟩
    else learn_new_answers encryptF before rest

/-- The encryptor actually in use: `encrypt_value` never raises (it
catches its own exceptions and falls back to the plaintext). -/
def encryptOf (cipher : Option Cipher) : String → Except String String :=
  fun v => .ok ((encrypt_value cipher v).getD v)

/-! ### Rate governor (`_rate_limit_check`)

State and check, with wall-clock instants passed in explicitly
(`now = time.time()`, `today = time.strftime("%Y-%m-%d")`).  The
check returns the slept duration (`0` = the `asyncio.sleep` call was
not reached) or the daily-limit exception, together with the updated
counters. -/

/-- Module-level rate-limiting state. -/
structure RateState where
  actionsThisMinute : Nat
  lastActionTimestamp : Int
  appliesToday : Nat
  lastResetDate : String
deriving DecidableEq, Repr

/-- Daily rollover (step 1 of `_rate_limit_check`). -/
def rolled (s : RateState) (today : String) : RateState :=
  if today ≠ s.lastResetDate then
    { s with appliesToday := 0, lastResetDate := today }
  else s

/-- The message of the daily-ceiling exception. -/
def dailyLimitMsg : String :=
  "Daily application limit reached (50). Please continue manually."

/-- `_rate_limit_check`: rollover, daily ceiling (raises), minute
throttle (sleeps the remainder of the window and restarts it), then
counts the action. -/
def rate_limit_check (s : RateState) (now : Int) (today : String) :
    Except String Int × RateState :=
  let s1 := rolled s today
  if 50 ≤ s1.appliesToday then (.error dailyLimitMsg, s1)
  else if now - s1.lastActionTimestamp < 60 then
    if 12 ≤ s1.actionsThisMinute then
      let w := 60 - (now - s1.lastActionTimestamp)
      (.ok w, { s1 with actionsThisMinute := 1, lastActionTimestamp := now + w })
    else (.ok 0, { s1 with actionsThisMinute := s1.actionsThisMinute + 1 })
  else (.ok 0, { s1 with actionsThisMinute := 1, lastActionTimestamp := now })

/-! ### Application state machine (`autofill_easy_apply_modal`)

The driver is modelled as a run over an environment that fixes every
external observation the Python code makes: whether the browser/data
collaborators answer, what every page query returns at each loop
step, the stop-flag value at each cooperative check, the wall clock
at each rate check, the question-bank rows returned by each fetch,
and the scorer/cipher.  The run returns the structured outcome
(status/message, exactly the dict the Python returns), the final
rate state, the ordered trace of externally visible effects, and the
number of loop iterations that reached the field-filling phase. -/

/-- Externally visible effects of one attempt. -/
inductive Event where
  | screenshot (name : String)
  | navigate (url : String)
  | click (target : String)
  | fill (label value : String)
  | sleep (seconds : Int)
  | fetchQuestionBank
  | insertApplication (status : String)
  | updateJobStatus (status : String)
  | upsertQB (question answer category : String)
deriving DecidableEq, Repr

/-- Browser actions in the sense of the rate-governor contract
(click, fill, navigate — plus screenshots, which also drive the
page). -/
def Event.isBrowserAction : Event → Bool
  | .screenshot _ => true
  | .navigate _ => true
  | .click _ => true
  | .fill _ _ => true
  | _ => false

/-- What the page shows during one iteration of the form-filling
loop. -/
structure StepView where
  modalPresent : Bool
  submitPresent : Bool
  confirmed : Bool
  dismissPresent : Bool
  formBefore : List (String × String)
  fieldLabels : List String
  nextPresent : Bool
  errorsAfterNext : Bool
  humanResolves : Bool
  formAfterHuman : List (String × String)

/-- Environment of one attempt invocation. -/
structure AttemptEnv where
  browserRunning : Bool
  jobFound : Bool
  jobUrl : Option String
  pageUrlMatches : Bool
  navigationOk : Bool
  navErrMsg : String
  easyApplyBtnFound : Bool
  modalAlreadyOpen : Bool
  dryRun : Bool
  today : String
  now : Nat → Int
  stopSignal : Nat → Bool
  nextDelay : Nat → Int
  steps : Nat → StepView
  qbAt : Nat → List QBRow
  profile : Profile
  sim : String → String → Nat
  cipher : Option Cipher

/-- Structured outcome dict of one attempt. -/
structure AttemptResult where
  status : String
  message : String
deriving DecidableEq, Repr

/-- Result of a (partial) run: outcome, final rate state, effect
trace, and how many loop iterations reached the filling phase. -/
structure LoopResult where
  result : AttemptResult
  rate : RateState
  trace : List Event
  fillSteps : Nat
deriving Repr

/-- Message returned when the loop stops on an unrecognized form
structure or exhausts its 10-step bound. -/
def finishMsg : String :=
  "Assistant finished filling known fields. Please complete any remaining steps."

/-- Message of the cooperative-stop outcome (the `InterruptedError`
handler). -/
def stopMsg : String := "Automation stopped by user."

/-- Filling pass of `_fill_modal_fields` over the labelled fields of
the current step: resolve each label against one bank snapshot,
emit a fill action for every truthy answer, and accumulate the
skipped-label side channel.  Select dropdowns and radio fieldsets
resolve their labels through the same `find_answer` closure; the
terms-checkbox auto-tick and the CV file upload consult neither the
resolver nor the bank — no widget re-reads the question bank. -/
def fillFields (ctx : ResolveCtx) : List String → List Event × List String
  | [] => ([], [])
  | l :: ls =>
    let a := find_answer ctx l
    let r := fillFields ctx ls
    ((match a.1 with
      | some v => if v ≠ "" then [Event.fill l v] else []
      | Option.none => []) ++ r.1,
     a.2 ++ r.2)

/-- Outcome of one loop iteration: either the attempt terminates
(`done`) or control reaches the next iteration (`next`) with the
updated rate state, this iteration's events, and whether the filling
phase ran. -/
inductive IterOut where
  | done (result : AttemptResult) (rate : RateState) (events : List Event)
      (didFill : Bool)
  | next (rate : RateState) (events : List Event) (didFill : Bool)

/-- One iteration of the multi-step form loop (body of
`while current_step < max_steps`). `stepIdx` is `current_step`, `k`
indexes the stop/rate observations, `fIdx` counts earlier bank
fetches.  `list(set(skipped))` is modelled as `eraseDups`
(first-occurrence order; CPython's set iteration order is
unspecified, and the deduplicated list only feeds the dry-run
message). -/
def loopIter (env : AttemptEnv) (stepIdx k fIdx : Nat) (s : RateState) : IterOut :=
  if env.stopSignal k then .done ⟨"warning", stopMsg⟩ s [] false
  else
    match rate_limit_check s (env.now k) env.today with
    | (.error m, s1) => .done ⟨"error", m⟩ s1 [] false
    | (.ok w, s1) =>
      let v := env.steps stepIdx
      let t0 := (if w = 0 then [] else [Event.sleep w]) ++
        [Event.screenshot ("step_" ++ natDec stepIdx ++ ".png")]
      if v.modalPresent = false then .done ⟨"success", finishMsg⟩ s1 t0 false
      else if v.submitPresent then
        if env.dryRun then
          .done ⟨"success", "Dry Run: Reached Submit button."⟩ s1 t0 false
        else
          let s2 := { s1 with appliesToday := s1.appliesToday + 1 }
          let t1 := t0 ++ [Event.click "Submit application"]
          if v.confirmed then
            .done ⟨"success", "Application submitted automatically."⟩ s2
              (t1 ++ [Event.screenshot "success_proof.png",
                Event.insertApplication "applied", Event.updateJobStatus "applied"] ++
               (if v.dismissPresent then [Event.click "Dismiss"] else []))
              false
          else
            .done ⟨"warning",
                "Clicked Submit, but verification timed out. Record saved anyway."⟩
              s2
              (t1 ++ [Event.insertApplication "applied",
                Event.updateJobStatus "applied"])
              false
      else
        let ctx : ResolveCtx := ⟨env.qbAt fIdx, env.profile, env.sim, env.cipher⟩
        let fr := fillFields ctx v.fieldLabels
        let skipped := fr.2.eraseDups
        let t1 := t0 ++ [Event.fetchQuestionBank] ++ fr.1
        if env.dryRun then
          .done ⟨"success", "Dry Run: Fields filled. Skipped: " ++
              (if skipped.isEmpty then "None" else String.intercalate ", " skipped)⟩
            s1 t1 true
        else if v.nextPresent then
          let t2 := t1 ++ [Event.sleep (env.nextDelay stepIdx),
            Event.click "Next or Review", Event.sleep 2]
          if v.errorsAfterNext then
            if v.humanResolves then
              if v.formAfterHuman.isEmpty then
                .done ⟨"error", "name current_state_after is not defined"⟩ s1 t2 true
              else
                let lr := learn_new_answers (encryptOf env.cipher) v.formBefore
                  v.formAfterHuman
                .next s1
                  (t2 ++ lr.upserts.map
                      (fun u => Event.upsertQB u.question_text u.answer_text u.category) ++
                    [Event.sleep 2])
                  true
            else
              .done ⟨"error", "Timed out waiting for human intervention."⟩ s1 t2 true
          else .next s1 t2 true
        else .done ⟨"success", finishMsg⟩ s1 t1 true

/-- The bounded form-filling loop (`max_steps = 10` iterations of
fuel). -/
def loopRun (env : AttemptEnv) : Nat → Nat → Nat → Nat → RateState → LoopResult
  | 0, _, _, _, s => ⟨⟨"success", finishMsg⟩, s, [], 0⟩
  | fuel + 1, stepIdx, k, fIdx, s =>
    match loopIter env stepIdx k fIdx s with
    | .done r s' evs f => ⟨r, s', evs, if f then 1 else 0⟩
    | .next s' evs f =>
      let r := loopRun env fuel (stepIdx + 1) (k + 1) (fIdx + (if f then 1 else 0)) s'
      ⟨r.result, r.rate, evs ++ r.trace, (if f then 1 else 0) + r.fillSteps⟩

/-- Everything before the form loop: collaborator guards, the first
rate check, URL/domain guards, navigation, the first stop check and
the Easy Apply trigger.  `error r` means the attempt terminated with
`r`; `ok` carries the rate state and trace accumulated so far. -/
def preloop (env : AttemptEnv) (s : RateState) :
    Except LoopResult (RateState × List Event) :=
  if env.browserRunning = false then
    .error ⟨⟨"error", "Assistant browser not running."⟩, s, [], 0⟩
  else if env.jobFound = false then
    .error ⟨⟨"error", "Job or Profile data missing."⟩, s, [], 0⟩
  else
    match rate_limit_check s (env.now 0) env.today with
    | (.error m, s1) => .error ⟨⟨"error", m⟩, s1, [], 0⟩
    | (.ok w, s1) =>
      let t0 : List Event := if w = 0 then [] else [Event.sleep w]
      match env.jobUrl with
      | Option.none => .error ⟨⟨"error", "Job URL not found."⟩, s1, t0, 0⟩
      | some u =>
        if pyIn "linkedin.com" u = false then
          .error ⟨⟨"error",
            "Assistant currently only supports LinkedIn Easy Apply jobs. This job links to an external site."⟩,
            s1, t0, 0⟩
        else
          let t1 := t0 ++ [Event.screenshot "0_page_load.png"]
          if env.pageUrlMatches = false ∧ env.navigationOk = false then
            .error ⟨⟨"error", "Failed to navigate to job: " ++ env.navErrMsg⟩, s1,
              t1 ++ [Event.navigate u,
                Event.screenshot "error_navigation_failed.png"], 0⟩
          else
            let t2 := t1 ++
              (if env.pageUrlMatches then []
               else [Event.navigate u, Event.sleep 3,
                 Event.screenshot "0.5_after_navigation.png"])
            if env.stopSignal 0 then
              .error ⟨⟨"warning", stopMsg⟩, s1, t2, 0⟩
            else
              let t3 := t2 ++ [Event.screenshot "0.6_before_button_check.png"]
              if env.easyApplyBtnFound then
                .ok (s1, t3 ++ [Event.click "Easy Apply", Event.sleep 2,
                  Event.screenshot "1_modal_opened.png"])
              else if env.modalAlreadyOpen then
                .ok (s1, t3 ++ [Event.screenshot "error_button_not_found.png",
                  Event.screenshot "1_modal_opened.png"])
              else
                .error ⟨⟨"error", "Easy Apply button not found on page."⟩, s1,
                  t3 ++ [Event.screenshot "error_button_not_found.png"], 0⟩

/-- `autofill_easy_apply_modal`: guards and setup, then up to ten
form steps. -/
def autofill (env : AttemptEnv) (s : RateState) : LoopResult :=
  match preloop env s with
  | .error r => r
  | .ok (s1, tr) =>
    let r := loopRun env 10 1 1 0 s1
    ⟨r.result, r.rate, tr ++ r.trace, r.fillSteps⟩

/-! ### Trace observations -/

/-- Number of question-bank fetches in a trace. -/
def fetchCount : List Event → Nat
  | [] => 0
  | e :: tl => (if e = Event.fetchQuestionBank then 1 else 0) + fetchCount tl

/-- Number of clicks on the terminal submit control in a trace. -/
def submitClickCount : List Event → Nat
  | [] => 0
  | e :: tl => (if e = Event.click "Submit application" then 1 else 0) + submitClickCount tl

/-- Number of browser actions in a trace. -/
def browserActionCount : List Event → Nat
  | [] => 0
  | e :: tl => (if e.isBrowserAction then 1 else 0) + browserActionCount tl

/-- Specification of one loop iteration's bank-fetch accounting: the
iteration's events contain exactly one fetch when its filling phase
ran, none otherwise. -/
def iterFetchOk : IterOut → Prop
  | .done _ _ evs f => fetchCount evs = (if f then 1 else 0)
  | .next _ evs f => fetchCount evs = (if f then 1 else 0)

/-- Specification of one loop iteration's daily-counter accounting:
a terminating iteration never pushes the counter above
`max old 50`; a continuing iteration leaves it strictly below 50. -/
def iterAppliesOk (s : RateState) : IterOut → Prop
  | .done _ r _ _ => r.appliesToday ≤ max s.appliesToday 50
  | .next r _ _ => r.appliesToday < 50

/-- Specification of the pre-loop phase: its trace holds no
question-bank fetch and no submit click, an early exit has counted
no fill steps and keeps the daily counter bounded, and on success
the rate state is exactly the one produced by the initial rate
check. -/
def preSpec (env : AttemptEnv) (s : RateState) :
    Except LoopResult (RateState × List Event) → Prop
  | .error r => fetchCount r.trace = 0 ∧ r.fillSteps = 0 ∧
      r.rate.appliesToday ≤ max s.appliesToday 50
  | .ok (s1, tr) => fetchCount tr = 0 ∧ submitClickCount tr = 0 ∧
      s1 = (rate_limit_check s (env.now 0) env.today).2

/-! ### Concrete instances used by witnesses and counterexamples -/

/-- A populated profile. -/
def profJane : Profile :=
  ⟨some "+49123", some "j@d.com", "Jane Doe", .list [], .list []⟩

/-- A profile with nothing fillable. -/
def profEmpty : Profile :=
  ⟨Option.none, Option.none, "", .list [], .list []⟩

/-- Resolver context holding an exact question-bank match for the
sensitive label `"Current salary"` and a scorer that rates
everything 100. -/
def ctxExactSalary : ResolveCtx :=
  ⟨[⟨"Current salary", "100k", "salary"⟩], profJane, fun _ _ => 100, Option.none⟩

/-- Resolver context whose scorer rates every pair exactly 80. -/
def ctxScore80 : ResolveCtx :=
  ⟨[⟨"Do you require sponsorship for employment?", "No", "general"⟩], profEmpty,
   fun _ _ => 80, Option.none⟩

/-- Resolver context whose scorer rates every pair 100. -/
def ctxScore100 : ResolveCtx :=
  ⟨[⟨"Do you require sponsorship for employment?", "No", "general"⟩], profEmpty,
   fun _ _ => 100, Option.none⟩

/-- A working cipher: encryption prepends the Fernet marker,
decryption always fails. -/
def cipherX : Cipher :=
  ⟨fun v => "gAAAAAenc " ++ v, fun _ => Option.none⟩

/-- A step view showing nothing (modal closed). -/
def stepNone : StepView :=
  ⟨false, false, false, false, [], [], false, false, false, []⟩

/-- A step view with one fillable text field and a Next control,
no validation errors. -/
def stepPhone : StepView :=
  ⟨true, false, false, false, [("Phone", "")], ["Phone"], true, false, false, []⟩

/-- A final step view without a Next control. -/
def stepEmail : StepView :=
  ⟨true, false, false, false, [], ["Email"], false, false, false, []⟩

/-- A step view where the terminal submit control is present and
confirmation would appear. -/
def stepSubmit : StepView :=
  ⟨true, true, true, false, [], [], false, false, false, []⟩

/-- Baseline attempt environment: collaborators healthy, a LinkedIn
job URL, page already on it, Easy Apply button present, no stop
requests, wall clock frozen, empty question bank, no cipher. -/
def envBase : AttemptEnv where
  browserRunning := true
  jobFound := true
  jobUrl := some "https://www.linkedin.com/jobs/view/123"
  pageUrlMatches := true
  navigationOk := true
  navErrMsg := ""
  easyApplyBtnFound := true
  modalAlreadyOpen := false
  dryRun := false
  today := "2026-02-03"
  now := fun _ => 1000
  stopSignal := fun _ => false
  nextDelay := fun _ => 3
  steps := fun _ => stepNone
  qbAt := fun _ => []
  profile := profJane
  sim := fun _ _ => 0
  cipher := Option.none

/-- Environment whose modal shows two filling steps (the second one
final). -/
def envTwoSteps : AttemptEnv :=
  { envBase with
    steps := fun i => if i = 1 then stepPhone else if i = 2 then stepEmail else stepNone }

/-- Two-step environment in which a stop is requested after the
attempt starts (flag observed from the first loop boundary on). -/
def envStopped : AttemptEnv :=
  { envTwoSteps with stopSignal := fun k => decide (1 ≤ k) }

/-- Dry-run environment reaching the submit control at step 1. -/
def envDrySubmit : AttemptEnv :=
  { envBase with
    dryRun := true
    steps := fun i => if i = 1 then stepSubmit else stepNone }

/-! ### Helper lemmas: decimal printing -/

theorem natDecAux_succ_ne_nil (f n : Nat) : natDecAux (f + 1) n ≠ [] := by
  unfold natDecAux
  split
  · simp
  · simp

theorem natDecAux_ne_nil (f n : Nat) (hf : 0 < f) : natDecAux f n ≠ [] := by
  cases f with
  | zero => omega
  | succ f => exact natDecAux_succ_ne_nil f n

theorem decDigit_ne_zero (n : Nat) (h1 : 1 ≤ n) (h2 : n < 10) : decDigit n ≠ '0' := by
  interval_cases n <;> decide

theorem natDecAux_ne_zero (fuel : Nat) :
    ∀ n : Nat, 1 ≤ n → n < 10 ^ fuel → natDecAux fuel n ≠ ['0'] := by
  induction fuel with
  | zero => intro n h1 h2; simp at h2; omega
  | succ f ih =>
    intro n h1 h2
    unfold natDecAux
    split
    · next hlt =>
      intro he
      exact decDigit_ne_zero n h1 hlt (List.cons.injEq .. ▸ he).1
    · next hge =>
      intro he
      have h10 : 10 ≤ n := by omega
      have hfpos : 0 < f := by
        rcases Nat.eq_zero_or_pos f with hf0 | hf
        · subst hf0; simp [pow_succ] at h2; omega
        · exact hf
      have hpre : natDecAux f (n / 10) ≠ [] := natDecAux_ne_nil f (n / 10) hfpos
      have hl := congrArg List.length he
      simp at hl
      exact hpre hl

theorem natDec_ne_empty (n : Nat) : natDec n ≠ "" := by
  intro he
  have hd := congrArg String.data he
  simp only [natDec] at hd
  exact natDecAux_succ_ne_nil n n (by simpa using hd)

theorem natDec_ne_zero_str (n : Nat) (h : 1 ≤ n) : natDec n ≠ "0" := by
  intro he
  have hd := congrArg String.data he
  simp only [natDec] at hd
  have hlt : n < 10 ^ (n + 1) :=
    lt_of_lt_of_le (Nat.lt_pow_self (by norm_num) n)
      (Nat.pow_le_pow_right (by norm_num) (Nat.le_succ n))
  exact natDecAux_ne_zero (n + 1) n h hlt (by simpa using hd)

theorem intDec_of_pos (i : Int) (h : 1 ≤ i) : intDec i = natDec i.toNat := by
  unfold intDec
  rw [if_neg (by omega)]

/-! ### Helper lemmas: rate governor -/

theorem rolled_eq_self (s : RateState) (today : String)
    (h : s.lastResetDate = today) : rolled s today = s := by
  simp [rolled, h]

theorem rolled_lastResetDate (s : RateState) (today : String) :
    (rolled s today).lastResetDate = today := by
  unfold rolled
  split
  · rfl
  · next h => simpa using (not_ne_iff.mp h).symm

theorem rolled_timestamps (s : RateState) (today : String) :
    (rolled s today).actionsThisMinute = s.actionsThisMinute ∧
    (rolled s today).lastActionTimestamp = s.lastActionTimestamp := by
  unfold rolled
  split <;> exact ⟨rfl, rfl⟩

theorem rlc_error_of (s : RateState) (now : Int) (today : String)
    (h : 50 ≤ (rolled s today).appliesToday) :
    rate_limit_check s now today = (.error dailyLimitMsg, rolled s today) := by
  unfold rate_limit_check
  rw [if_pos h]

theorem rlc_snd_applies (s : RateState) (now : Int) (today : String) :
    ((rate_limit_check s now today).2).appliesToday = (rolled s today).appliesToday := by
  unfold rate_limit_check
  dsimp only
  split
  · rfl
  · split
    · split <;> rfl
    · rfl

theorem rlc_snd_lastResetDate (s : RateState) (now : Int) (today : String) :
    ((rate_limit_check s now today).2).lastResetDate = today := by
  unfold rate_limit_check
  dsimp only
  split
  · exact rolled_lastResetDate s today
  · split
    · split <;> exact rolled_lastResetDate s today
    · exact rolled_lastResetDate s today

theorem rlc_ok_exists (s : RateState) (now : Int) (today : String)
    (h : (rolled s today).appliesToday < 50) :
    ∃ w : Int, rate_limit_check s now today = (.ok w, (rate_limit_check s now today).2) := by
  unfold rate_limit_check
  rw [if_neg (by omega)]
  split
  · split
    · exact ⟨_, rfl⟩
    · exact ⟨_, rfl⟩
  · exact ⟨_, rfl⟩

theorem rlc_fst_ok_applies_lt (s : RateState) (now : Int) (today : String) (w : Int)
    (h : (rate_limit_check s now today).1 = .ok w) :
    (rolled s today).appliesToday < 50 := by
  by_contra hc
  rw [rlc_error_of s now today (by omega)] at h
  exact Except.noConfusion h

theorem rolled_applies_le (s : RateState) (today : String) :
    (rolled s today).appliesToday ≤ max s.appliesToday 50 := by
  unfold rolled
  split
  · simp
  · simp

/-! ### Claim C1: the sensitive veto is absolute -/

/-- C1: for every field label containing a keyword of the fixed
sensitive set, `find_answer` returns `None` and records the label as
skipped, whatever the question bank (exact or fuzzy matches
included), the profile, the scorer and the cipher hold — the veto is
the first resolution step, so nothing can override it. -/
theorem find_answer_sensitive_veto (ctx : ResolveCtx) (label : String)
    (h : SENSITIVE_KEYWORDS.any (fun kw => pyIn kw (strLower label)) = true) :
    find_answer ctx label = (Option.none, [label]) := by
  have hne : ¬ label = "" := by
    intro he
    rw [he] at h
    exact absurd h (by decide)
  unfold find_answer
  rw [if_neg hne, if_pos h]

/-- Witness for C1: the label `"Current salary"` is vetoed even
though the question bank holds an exact match for it and the scorer
rates it 100. -/
theorem find_answer_sensitive_veto_witness :
    SENSITIVE_KEYWORDS.any (fun kw => pyIn kw (strLower "Current salary")) = true ∧
    find_answer ctxExactSalary "Current salary" = (Option.none, ["Current salary"]) :=
  ⟨by decide, find_answer_sensitive_veto ctxExactSalary "Current salary" (by decide)⟩

/-! ### Claim C8: minute throttle -/

/-- C8: when 12 or more actions are already counted inside the
trailing 60-second window, the rate check sleeps exactly the
remainder of the window and restarts the window with the new action
as its only one; when the window start lies 60 or more seconds in
the past, no sleep happens and the minute counter likewise restarts
at the new action. -/
theorem rate_limit_throttle_and_reset (s : RateState) (now : Int) (today : String)
    (hd : (rolled s today).appliesToday < 50) :
    (now - s.lastActionTimestamp < 60 → 12 ≤ s.actionsThisMinute →
      rate_limit_check s now today =
        (.ok (60 - (now - s.lastActionTimestamp)),
          { rolled s today with
            actionsThisMinute := 1
            lastActionTimestamp := now + (60 - (now - s.lastActionTimestamp)) })) ∧
    (60 ≤ now - s.lastActionTimestamp →
      rate_limit_check s now today =
        (.ok 0, { rolled s today with actionsThisMinute := 1, lastActionTimestamp := now })) := by
  obtain ⟨hact, hts⟩ := rolled_timestamps s today
  constructor
  · intro h1 h2
    unfold rate_limit_check
    dsimp only
    rw [if_neg (by omega), if_pos (by rw [hts]; exact h1), if_pos (by rw [hact]; exact h2),
      hts]
  · intro h1
    unfold rate_limit_check
    dsimp only
    rw [if_neg (by omega), if_neg (by rw [hts]; omega)]

/-- Witness for C8: with 12 actions counted and the window begun 59
seconds ago the check sleeps 1 second and restarts the counter at 1;
with the window begun exactly 60 seconds ago it sleeps 0 and
restarts the counter at 1. -/
theorem rate_limit_throttle_and_reset_witness :
    rate_limit_check ⟨12, 940, 10, "2026-02-03"⟩ 999 "2026-02-03" =
      (.ok 1, ⟨1, 1000, 10, "2026-02-03"⟩) ∧
    rate_limit_check ⟨12, 900, 10, "2026-02-03"⟩ 960 "2026-02-03" =
      (.ok 0, ⟨1, 960, 10, "2026-02-03"⟩) := by
  constructor
  · exact ((rate_limit_throttle_and_reset ⟨12, 940, 10, "2026-02-03"⟩ 999 "2026-02-03"
      (by decide)).1 (by decide) (by decide)).trans (by rfl)
  · exact ((rate_limit_throttle_and_reset ⟨12, 900, 10, "2026-02-03"⟩ 960 "2026-02-03"
      (by decide)).2 (by decide)).trans (by rfl)

/-! ### Claim C10: derived experience is a positive integer string -/

theorem calcYears_cases (p : Profile) : calcYears p = 0 ∨ 1 ≤ calcYears p := by
  unfold calcYears
  split
  · split
    · exact Or.inl rfl
    · split
      · split
        · split
          · exact Or.inr (le_max_left 1 _)
          · exact Or.inl rfl
        · exact Or.inl rfl
      · exact Or.inl rfl
  · exact Or.inl rfl

/-- C10: for every profile — the work-experience list may be empty,
malformed or absent and the skills value may be empty or not a
list — `calc_exp` returns the decimal string of an integer that is
at least 1, hence never `"0"` and never empty. -/
theorem calc_exp_positive (p : Profile) :
    ∃ n : Nat, 1 ≤ n ∧ calc_exp p = natDec n ∧ calc_exp p ≠ "0" ∧ calc_exp p ≠ "" := by
  have hstr : ∃ n : Nat, 1 ≤ n ∧ calc_exp p = natDec n := by
    unfold calc_exp
    rcases calcYears_cases p with h0 | h1
    · rw [if_pos h0]
      split
      · exact ⟨Nat.max 1 _, Nat.le_max_left 1 _, rfl⟩
      · exact ⟨3, by norm_num, rfl⟩
    · rw [if_neg (by omega)]
      refine ⟨(calcYears p).toNat, by omega, ?_⟩
      exact intDec_of_pos _ h1
  obtain ⟨n, hn, he⟩ := hstr
  exact ⟨n, hn, he, he ▸ natDec_ne_zero_str n hn, he ▸ natDec_ne_empty n⟩

/-! ### Helper lemmas: traces and the form loop -/

theorem fetchCount_append (a b : List Event) :
    fetchCount (a ++ b) = fetchCount a + fetchCount b := by
  induction a with
  | nil => simp [fetchCount]
  | cons e tl ih => simp [fetchCount, ih]; omega

theorem submitClickCount_append (a b : List Event) :
    submitClickCount (a ++ b) = submitClickCount a + submitClickCount b := by
  induction a with
  | nil => simp [submitClickCount]
  | cons e tl ih => simp [submitClickCount, ih]; omega

theorem fillFields_counts (ctx : ResolveCtx) (ls : List String) :
    fetchCount (fillFields ctx ls).1 = 0 ∧ submitClickCount (fillFields ctx ls).1 = 0 := by
  induction ls with
  | nil => exact ⟨rfl, rfl⟩
  | cons l tl ih =>
    unfold fillFields
    dsimp only
    rcases ha : (find_answer ctx l).1 with _ | v
    · simpa [fetchCount_append, submitClickCount_append] using ih
    · by_cases hv : v ≠ "" <;>
        simp [hv, fetchCount_append, submitClickCount_append, fetchCount,
          submitClickCount, ih.1, ih.2]

theorem upsertEvents_counts (us : List Upsert) :
    fetchCount (us.map fun u => Event.upsertQB u.question_text u.answer_text u.category) = 0 ∧
    submitClickCount (us.map fun u => Event.upsertQB u.question_text u.answer_text u.category) = 0 := by
  induction us with
  | nil => exact ⟨rfl, rfl⟩
  | cons u tl ih => simp [fetchCount, submitClickCount, ih.1, ih.2]

theorem fetchCount_sleepOpt (w : Int) :
    fetchCount (if w = 0 then ([] : List Event) else [Event.sleep w]) = 0 := by
  split_ifs <;> simp [fetchCount]

theorem submitClickCount_sleepOpt (w : Int) :
    submitClickCount (if w = 0 then ([] : List Event) else [Event.sleep w]) = 0 := by
  split_ifs <;> simp [submitClickCount]

theorem loopIter_fetchOk (env : AttemptEnv) (stepIdx k fIdx : Nat) (s : RateState) :
    iterFetchOk (loopIter env stepIdx k fIdx s) := by
  unfold loopIter
  by_cases h1 : env.stopSignal k
  · simp [h1, iterFetchOk, fetchCount]
  · rw [if_neg h1]
    rcases hr : rate_limit_check s (env.now k) env.today with ⟨e, s1⟩
    cases e with
    | error m => simp [iterFetchOk, fetchCount]
    | ok w =>
      dsimp only
      by_cases h2 : (env.steps stepIdx).modalPresent = false
      · simp [h2, iterFetchOk, fetchCount_append, fetchCount, fetchCount_sleepOpt]
      · rw [if_neg h2]
        by_cases h3 : (env.steps stepIdx).submitPresent
        · rw [if_pos h3]
          by_cases h4 : env.dryRun
          · simp [h4, iterFetchOk, fetchCount_append, fetchCount, fetchCount_sleepOpt]
          · rw [if_neg h4]
            by_cases h5 : (env.steps stepIdx).confirmed <;>
              by_cases h6 : (env.steps stepIdx).dismissPresent <;>
                simp [h5, h6, iterFetchOk, fetchCount_append, fetchCount,
                  fetchCount_sleepOpt]
        · rw [if_neg h3]
          have hff := fillFields_counts ⟨env.qbAt fIdx, env.profile, env.sim, env.cipher⟩
            (env.steps stepIdx).fieldLabels
          have hup := upsertEvents_counts
            (learn_new_answers (encryptOf env.cipher) (env.steps stepIdx).formBefore
              (env.steps stepIdx).formAfterHuman).upserts
          by_cases h4 : env.dryRun
          · simp [h4, iterFetchOk, fetchCount_append, fetchCount, fetchCount_sleepOpt,
              hff.1]
          · rw [if_neg h4]
            by_cases h5 : (env.steps stepIdx).nextPresent
            · rw [if_pos h5]
              by_cases h6 : (env.steps stepIdx).errorsAfterNext <;>
                by_cases h7 : (env.steps stepIdx).humanResolves <;>
                  by_cases h8 : (env.steps stepIdx).formAfterHuman.isEmpty <;>
                    simp [h6, h7, h8, iterFetchOk, fetchCount_append, fetchCount,
                      fetchCount_sleepOpt, hff.1, hup.1]
            · simp [h5, iterFetchOk, fetchCount_append, fetchCount, fetchCount_sleepOpt,
                hff.1]

theorem loopIter_appliesOk (env : AttemptEnv) (stepIdx k fIdx : Nat) (s : RateState) :
    iterAppliesOk s (loopIter env stepIdx k fIdx s) := by
  unfold loopIter
  by_cases h1 : env.stopSignal k
  · simp [h1, iterAppliesOk]
  · rw [if_neg h1]
    rcases hr : rate_limit_check s (env.now k) env.today with ⟨e, s1⟩
    have hs1 : s1.appliesToday = (rolled s env.today).appliesToday := by
      have h := rlc_snd_applies s (env.now k) env.today
      rw [hr] at h
      simpa using h
    have hrle : (rolled s env.today).appliesToday ≤ max s.appliesToday 50 :=
      rolled_applies_le s env.today
    cases e with
    | error m => simp [iterAppliesOk] <;> omega
    | ok w =>
      have hlt : (rolled s env.today).appliesToday < 50 := by
        apply rlc_fst_ok_applies_lt s (env.now k) env.today w
        rw [hr]
      dsimp only
      by_cases h2 : (env.steps stepIdx).modalPresent = false
      · simp [h2, iterAppliesOk] <;> omega
      · rw [if_neg h2]
        by_cases h3 : (env.steps stepIdx).submitPresent
        · rw [if_pos h3]
          by_cases h4 : env.dryRun
          · simp [h4, iterAppliesOk] <;> omega
          · rw [if_neg h4]
            by_cases h5 : (env.steps stepIdx).confirmed <;>
              by_cases h6 : (env.steps stepIdx).dismissPresent <;>
                simp [h5, h6, iterAppliesOk] <;> omega
        · rw [if_neg h3]
          by_cases h4 : env.dryRun
          · simp [h4, iterAppliesOk] <;> omega
          · rw [if_neg h4]
            by_cases h5 : (env.steps stepIdx).nextPresent
            · rw [if_pos h5]
              by_cases h6 : (env.steps stepIdx).errorsAfterNext <;>
                by_cases h7 : (env.steps stepIdx).humanResolves <;>
                  by_cases h8 : (env.steps stepIdx).formAfterHuman.isEmpty <;>
                    simp [h6, h7, h8, iterAppliesOk] <;> omega
            · simp [h5, iterAppliesOk] <;> omega

theorem loopRun_fetch (env : AttemptEnv) (fuel : Nat) : ∀ stepIdx k fIdx s,
    fetchCount (loopRun env fuel stepIdx k fIdx s).trace =
      (loopRun env fuel stepIdx k fIdx s).fillSteps := by
  induction fuel with
  | zero => intro stepIdx k fIdx s; rfl
  | succ n ih =>
    intro stepIdx k fIdx s
    unfold loopRun
    have hf := loopIter_fetchOk env stepIdx k fIdx s
    rcases ho : loopIter env stepIdx k fIdx s with ⟨a, r, evs, f⟩ | ⟨r, evs, f⟩ <;>
      rw [ho] at hf <;> simp only [iterFetchOk] at hf <;> simp only [loopRun, ho]
    · exact hf
    · rw [fetchCount_append, hf, ih]

theorem loopRun_applies (env : AttemptEnv) (fuel : Nat) : ∀ stepIdx k fIdx s,
    (loopRun env fuel stepIdx k fIdx s).rate.appliesToday ≤ max s.appliesToday 50 := by
  induction fuel with
  | zero => intro stepIdx k fIdx s; exact le_max_left _ _
  | succ n ih =>
    intro stepIdx k fIdx s
    unfold loopRun
    have ha := loopIter_appliesOk env stepIdx k fIdx s
    rcases ho : loopIter env stepIdx k fIdx s with ⟨a, r, evs, f⟩ | ⟨r, evs, f⟩ <;>
      rw [ho] at ha <;> simp only [iterAppliesOk] at ha <;> simp only [loopRun, ho]
    · exact ha
    · have := ih (stepIdx + 1) (k + 1) (fIdx + (if f then 1 else 0)) r
      omega

theorem preloop_spec (env : AttemptEnv) (s : RateState) :
    preSpec env s (preloop env s) := by
  unfold preloop
  by_cases h1 : env.browserRunning = false
  · simp [h1, preSpec, fetchCount] <;> omega
  · rw [if_neg h1]
    by_cases h2 : env.jobFound = false
    · simp [h2, preSpec, fetchCount] <;> omega
    · rw [if_neg h2]
      rcases hr : rate_limit_check s (env.now 0) env.today with ⟨e, s1⟩
      have hs1 : s1 = (rate_limit_check s (env.now 0) env.today).2 := by rw [hr]
      have hs1a : s1.appliesToday ≤ max s.appliesToday 50 := by
        have h := rlc_snd_applies s (env.now 0) env.today
        rw [hr] at h
        simp only at h
        have := rolled_applies_le s env.today
        omega
      have hs1b : ((rate_limit_check s (env.now 0) env.today).2).appliesToday ≤
          max s.appliesToday 50 := by
        rw [← hs1]
        exact hs1a
      cases e with
      | error m => simp [preSpec, fetchCount] <;> omega
      | ok w =>
        dsimp only
        rcases hu : env.jobUrl with _ | u
        · simp [preSpec, fetchCount_sleepOpt] <;> omega
        · dsimp only
          by_cases h3 : pyIn "linkedin.com" u = false
          · simp [h3, preSpec, fetchCount_sleepOpt] <;> omega
          · rw [if_neg h3]
            by_cases h4 : env.pageUrlMatches = false ∧ env.navigationOk = false
            · simp [h4, preSpec, fetchCount_append, fetchCount, fetchCount_sleepOpt] <;>
                omega
            · rw [if_neg h4]
              by_cases h5 : env.pageUrlMatches <;>
                by_cases h6 : env.stopSignal 0 <;>
                  by_cases h7 : env.easyApplyBtnFound <;>
                    by_cases h8 : env.modalAlreadyOpen <;>
                      simp [h5, h6, h7, h8, preSpec, fetchCount_append,
                        submitClickCount_append, fetchCount, submitClickCount,
                        fetchCount_sleepOpt, submitClickCount_sleepOpt, hs1] <;>
                      omega

/-! ### Claim C6: fuzzy-match threshold -/

/-- C6 counterexample: the claim says a label whose best similarity
score is at least 80 resolves to the stored answer, but the code
requires `score > 80`: with a scorer rating every pair exactly 80,
the best match against the bank scores 80 yet `find_answer` returns
`None` — the label is non-sensitive, has no profile mapping and no
derived computation applies, so nothing else interferes. -/
theorem fuzzy_at_80_not_resolved :
    extractOne ctxScore80.sim "Known languages"
      (ctxScore80.qb.map QBRow.question_text) =
      some ("Do you require sponsorship for employment?", 80) ∧
    find_answer ctxScore80 "Known languages" = (Option.none, []) := by
  constructor
  · rfl
  · rfl

/-- C6 amended: a non-sensitive, unmapped label resolves via fuzzy
matching exactly when the best similarity score is strictly greater
than 80: above the threshold the stored answer of the best-matching
question is returned, at 80 or below the fuzzy stage contributes
nothing and resolution falls back to the (falsy) profile mapping. -/
theorem truthy_some (a : String) : truthy (some a) = decide ¬(a = "") := rfl

theorem truthy_none : truthy Option.none = false := rfl

theorem find_answer_fuzzy_strict_threshold (ctx : ResolveCtx) (label best : String)
    (score : Nat)
    (hs : SENSITIVE_KEYWORDS.any (fun kw => pyIn kw (strLower label)) = false)
    (hne : label ≠ "")
    (hmap : truthy (map_label_to_value label ctx.profile) = false)
    (hqb : ctx.qb ≠ [])
    (hbest : extractOne ctx.sim label (ctx.qb.map QBRow.question_text) =
      some (best, score)) :
    (∀ row : QBRow, 80 < score →
      ctx.qb.find? (fun r => r.question_text = best) = some row →
      row.answer_text ≠ "" →
      pyStartsWith row.answer_text "gAAAAA" = false →
      find_answer ctx label = (some row.answer_text, [])) ∧
    (score ≤ 80 → pyIn "years" (strLower label) = false →
      find_answer ctx label = (map_label_to_value label ctx.profile, [])) := by
  constructor
  · intro row h80 hfind hrow hpre
    simp [find_answer, hne, hs, hmap, hbest, hfind, hqb, h80, hrow, hpre, truthy_some]
  · intro h80 hyears
    simp only [find_answer, if_neg hne, hs, Bool.false_eq_true, if_false, hmap, hbest,
      hyears, not_lt.mpr h80, if_false]
    rcases hm : map_label_to_value label ctx.profile with _ | a
    · simp [hm]
    · have ha : a = "" := by
        rw [hm] at hmap
        simpa [truthy_some] using hmap
      subst ha
      simp [hm, hmap, hyears, pyStartsWith, listPrefixB]

/-- Witness for the C6 amended theorem: a scorer rating 100 resolves
the unmapped label to the stored answer of the best match. -/
theorem find_answer_fuzzy_strict_threshold_witness :
    find_answer ctxScore100 "Known languages" = (some "No", []) :=
  (find_answer_fuzzy_strict_threshold ctxScore100 "Known languages"
      "Do you require sponsorship for employment?" 100 (by decide) (by decide)
      (by decide) (by decide) (by rfl)).1
    ⟨"Do you require sponsorship for employment?", "No", "general"⟩
    (by decide) (by rfl) (by decide) (by decide)

/-! ### Claim C2: sensitive upserts and encryption -/

/-- C2 counterexample: a human-typed value for a salary field can be
persisted *verbatim* under category `sensitive`, so the claim that a
sensitive upsert never stores the plaintext the human typed is
false.  First conjunct: with no `ENCRYPTION_KEY` configured
(`get_cipher_suite()` returns `None`), `encrypt_value` falls back to
the plaintext.  Second conjunct: even with a working cipher, a typed
value that happens to begin with the `gAAAAA` marker is stored
untouched (`encrypt_value` skips values it takes for ciphertext). -/
theorem sensitive_upsert_plaintext_counterexample :
    learn_new_answers (encryptOf Option.none) [] [("Expected salary", "50000")] =
      ⟨[⟨"Expected salary", "50000", "sensitive"⟩], false⟩ ∧
    learn_new_answers (encryptOf (some cipherX)) []
        [("Expected salary", "gAAAAAtyped")] =
      ⟨[⟨"Expected salary", "gAAAAAtyped", "sensitive"⟩], false⟩ := by
  exact ⟨rfl, rfl⟩

theorem learnCategory_ne_sensitive (label : String) :
    learnCategory label ≠ "sensitive" := by
  unfold learnCategory
  dsimp only
  split
  · decide
  · split
    · decide
    · split
      · decide
      · decide

/-- C2 amended: every question-bank upsert the learning adapter
issues with category `sensitive` stores `encrypt_value` applied to
the value the human typed — which is ciphertext when a cipher is
configured and the value lacks the `gAAAAA` marker, but is the
plaintext itself when no encryption key is configured or the value
already begins with the marker. -/
theorem sensitive_upsert_via_encrypt_value (cipher : Option Cipher)
    (before after : List (String × String)) (u : Upsert)
    (hu : u ∈ (learn_new_answers (encryptOf cipher) before after).upserts)
    (hc : u.category = "sensitive") :
    ∃ label val, (label, val) ∈ after ∧ val ≠ "" ∧ val ≠ pyGet before label ∧
      sensCond label = true ∧ u.question_text = strStrip label ∧
      u.answer_text = (encrypt_value cipher val).getD val := by
  induction after with
  | nil => simp [learn_new_answers] at hu
  | cons hd tl ih =>
    obtain ⟨label, new_val⟩ := hd
    unfold learn_new_answers at hu
    by_cases h1 : new_val ≠ "" ∧ new_val ≠ pyGet before label
    · rw [if_pos h1] at hu
      by_cases h2 : sensCond label
      · rw [if_pos h2] at hu
        simp only [encryptOf] at hu
        rcases List.mem_cons.mp hu with he | htl
        · exact ⟨label, new_val, List.mem_cons_self _ _, h1.1, h1.2, h2,
            by rw [he], by rw [he]⟩
        · obtain ⟨l, v, hmem, hprops⟩ := ih htl
          exact ⟨l, v, List.mem_cons_of_mem _ hmem, hprops⟩
      · rw [if_neg h2] at hu
        dsimp only at hu
        rcases List.mem_cons.mp hu with he | htl
        · exfalso
          rw [he] at hc
          exact learnCategory_ne_sensitive label hc
        · obtain ⟨l, v, hmem, hprops⟩ := ih htl
          exact ⟨l, v, List.mem_cons_of_mem _ hmem, hprops⟩
    · rw [if_neg h1] at hu
      obtain ⟨l, v, hmem, hprops⟩ := ih hu
      exact ⟨l, v, List.mem_cons_of_mem _ hmem, hprops⟩

/-- Witness for the C2 amended theorem at a configured cipher: the
upsert produced for a typed salary value carries the encryptor's
output. -/
theorem sensitive_upsert_via_encrypt_value_witness :
    ∃ label val, (label, val) ∈ [("Expected salary", "50000")] ∧ val ≠ "" ∧
      val ≠ pyGet [] label ∧ sensCond label = true ∧
      (⟨"Expected salary", "gAAAAAenc 50000", "sensitive"⟩ : Upsert).question_text =
        strStrip label ∧
      (⟨"Expected salary", "gAAAAAenc 50000", "sensitive"⟩ : Upsert).answer_text =
        (encrypt_value (some cipherX) val).getD val :=
  sensitive_upsert_via_encrypt_value (some cipherX) [] [("Expected salary", "50000")]
    ⟨"Expected salary", "gAAAAAenc 50000", "sensitive"⟩ (by decide) (by decide)

/-! ### Claim C7: encryption failure during learning -/

/-- C7 counterexample: the claim says an encryption failure abandons
only that one field and learning continues with the remaining
fields; but the handler executes a bare `return`, so with an
encryptor that raises on the second changed sensitive value, the
third changed sensitive field — which the claim says must still be
upserted — is never processed. -/
theorem encrypt_failure_abandons_rest_counterexample :
    learn_new_answers
        (fun v => if v = "B" then .error "boom" else .ok ("gAAAAAx" ++ v)) []
        [("Current salary", "A"), ("Expected salary", "B"),
          ("Desired compensation", "C")] =
      ⟨[⟨"Current salary", "gAAAAAxA", "sensitive"⟩], true⟩ := by
  rfl

/-- C7 amended: if encrypting one changed sensitive field's value
raises, the learning pass stops at that field: it and all remaining
fields of the snapshot diff are not upserted (earlier upserts
stand), rather than the pass continuing field by field. -/
theorem encrypt_failure_aborts_pass (encryptF : String → Except String String)
    (before after1 after2 : List (String × String)) (label val msg : String)
    (hval : val ≠ "") (hold : val ≠ pyGet before label)
    (hsens : sensCond label = true)
    (henc : encryptF val = .error msg) :
    learn_new_answers encryptF before (after1 ++ (label, val) :: after2) =
      ⟨(learn_new_answers encryptF before after1).upserts, true⟩ := by
  induction after1 with
  | nil =>
    simp only [List.nil_append]
    unfold learn_new_answers
    rw [if_pos ⟨hval, hold⟩, if_pos hsens, henc]
  | cons hd tl ih =>
    obtain ⟨l2, v2⟩ := hd
    simp only [List.cons_append]
    unfold learn_new_answers
    by_cases h1 : v2 ≠ "" ∧ v2 ≠ pyGet before l2
    · rw [if_pos h1, if_pos h1]
      by_cases h2 : sensCond l2
      · rw [if_pos h2, if_pos h2]
        rcases hE : encryptF v2 with m2 | sv
        · rfl
        · dsimp only
          rw [ih]
      · rw [if_neg h2, if_neg h2]
        dsimp only
        rw [ih]
    · rw [if_neg h1, if_neg h1]
      exact ih

/-- Witness for the C7 amended theorem: concrete abort in the middle
of a three-field diff. -/
theorem encrypt_failure_aborts_pass_witness :
    learn_new_answers
        (fun v => if v = "B" then .error "boom" else .ok ("gAAAAAx" ++ v)) []
        ([("Current salary", "A")] ++ ("Expected salary", "B") ::
          [("Desired compensation", "C")]) =
      ⟨(learn_new_answers
          (fun v => if v = "B" then .error "boom" else .ok ("gAAAAAx" ++ v)) []
          [("Current salary", "A")]).upserts, true⟩ :=
  encrypt_failure_aborts_pass
    (fun v => if v = "B" then .error "boom" else .ok ("gAAAAAx" ++ v)) []
    [("Current salary", "A")] [("Desired compensation", "C")]
    "Expected salary" "B" "boom" (by decide) (by decide) (by decide) (by rfl)

/-! ### Helper lemmas: unrolling the attempt -/

theorem loopRun_ten (env : AttemptEnv) (stepIdx k fIdx : Nat) (s : RateState) :
    loopRun env 10 stepIdx k fIdx s =
      match loopIter env stepIdx k fIdx s with
      | .done r s1 evs f => ⟨r, s1, evs, if f then 1 else 0⟩
      | .next s1 evs f =>
        let r := loopRun env 9 (stepIdx + 1) (k + 1) (fIdx + (if f then 1 else 0)) s1
        ⟨r.result, r.rate, evs ++ r.trace, (if f then 1 else 0) + r.fillSteps⟩ := rfl

theorem loopIter_stop (env : AttemptEnv) (stepIdx k fIdx : Nat) (s : RateState)
    (h : env.stopSignal k = true) :
    loopIter env stepIdx k fIdx s = .done ⟨"warning", stopMsg⟩ s [] false := by
  unfold loopIter
  rw [if_pos h]

theorem loopIter_dry_submit (env : AttemptEnv) (stepIdx k fIdx : Nat) (s : RateState)
    (hstop : env.stopSignal k = false)
    (hd : (rolled s env.today).appliesToday < 50)
    (hdry : env.dryRun = true)
    (hmodal : (env.steps stepIdx).modalPresent = true)
    (hsubmit : (env.steps stepIdx).submitPresent = true) :
    ∃ w, loopIter env stepIdx k fIdx s =
      .done ⟨"success", "Dry Run: Reached Submit button."⟩
        (rate_limit_check s (env.now k) env.today).2
        ((if w = 0 then [] else [Event.sleep w]) ++
          [Event.screenshot ("step_" ++ natDec stepIdx ++ ".png")]) false := by
  obtain ⟨w, hw⟩ := rlc_ok_exists s (env.now k) env.today hd
  refine ⟨w, ?_⟩
  unfold loopIter
  rw [if_neg (by simp [hstop]), hw]
  dsimp only
  rw [if_neg (by simp [hmodal]), if_pos hsubmit, if_pos hdry]

theorem autofill_of_preloop_ok (env : AttemptEnv) (s s1 : RateState) (tr : List Event)
    (h : preloop env s = .ok (s1, tr)) :
    autofill env s = ⟨(loopRun env 10 1 1 0 s1).result, (loopRun env 10 1 1 0 s1).rate,
      tr ++ (loopRun env 10 1 1 0 s1).trace, (loopRun env 10 1 1 0 s1).fillSteps⟩ := by
  unfold autofill
  rw [h]

theorem autofill_applies_le (env : AttemptEnv) (s : RateState) :
    (autofill env s).rate.appliesToday ≤ max s.appliesToday 50 := by
  have hp := preloop_spec env s
  unfold autofill
  rcases hpe : preloop env s with r | ⟨s1, tr⟩ <;> rw [hpe] at hp <;>
    simp only [preSpec] at hp
  · exact hp.2.2
  · dsimp only
    have h1 := loopRun_applies env 10 1 1 0 s1
    have h2 : s1.appliesToday ≤ max s.appliesToday 50 := by
      rw [hp.2.2]
      have ha := rlc_snd_applies s (env.now 0) env.today
      have hb := rolled_applies_le s env.today
      omega
    omega

theorem preloop_ok_of (env : AttemptEnv) (s : RateState) (u : String)
    (hb : env.browserRunning = true) (hj : env.jobFound = true)
    (hd : (rolled s env.today).appliesToday < 50)
    (hurl : env.jobUrl = some u) (hlink : pyIn "linkedin.com" u = true)
    (hpum : env.pageUrlMatches = true)
    (hstop : env.stopSignal 0 = false)
    (hbtn : env.easyApplyBtnFound = true) :
    ∃ tr, preloop env s = .ok ((rate_limit_check s (env.now 0) env.today).2, tr) := by
  obtain ⟨w, hw⟩ := rlc_ok_exists s (env.now 0) env.today hd
  unfold preloop
  rw [if_neg (by simp [hb]), if_neg (by simp [hj]), hw]
  dsimp only
  rw [hurl]
  dsimp only
  rw [if_neg (by simp [hlink]), if_neg (by simp [hpum])]
  rw [if_neg (by simp [hstop]), if_pos hbtn]
  simp only [hpum, if_true]
  exact ⟨_, rfl⟩

/-! ### Claim C3: daily ceiling is a fatal stop -/

/-- C3: with the day-rollover reset applied and the daily counter at
or above 50, the rate check raises; the attempt converts that into
an `error` outcome, its trace is empty (no browser action, no fetch,
nothing), and the daily counter is left untouched.  Moreover — the
invariant part of the claim — no attempt ever drives the counter
past the ceiling: for every environment and state the final counter
is at most `max initial 50`. -/
theorem daily_ceiling_fatal (env : AttemptEnv) (s : RateState)
    (hb : env.browserRunning = true) (hj : env.jobFound = true)
    (h50 : 50 ≤ (rolled s env.today).appliesToday) :
    (autofill env s).result = ⟨"error", dailyLimitMsg⟩ ∧
    (autofill env s).trace = [] ∧
    browserActionCount (autofill env s).trace = 0 ∧
    (autofill env s).rate.appliesToday = s.appliesToday ∧
    (∀ env2 : AttemptEnv, ∀ s2 : RateState,
      (autofill env2 s2).rate.appliesToday ≤ max s2.appliesToday 50) := by
  have hra : autofill env s = ⟨⟨"error", dailyLimitMsg⟩, rolled s env.today, [], 0⟩ := by
    unfold autofill preloop
    rw [if_neg (by simp [hb]), if_neg (by simp [hj]),
      rlc_error_of s (env.now 0) env.today h50]
  have hrs : (rolled s env.today).appliesToday = s.appliesToday := by
    unfold rolled
    split
    · next hne2 =>
      exfalso
      unfold rolled at h50
      rw [if_pos hne2] at h50
      simp at h50
    · rfl
  rw [hra]
  exact ⟨rfl, rfl, rfl, hrs, fun env2 s2 => autofill_applies_le env2 s2⟩

/-- Witness for C3: counter at 50 blocks the attempt with an empty
trace; and a normal two-step attempt started at 49 keeps the counter
within the ceiling. -/
theorem daily_ceiling_fatal_witness :
    (autofill envBase ⟨0, 0, 50, "2026-02-03"⟩).result = ⟨"error", dailyLimitMsg⟩ ∧
    (autofill envBase ⟨0, 0, 50, "2026-02-03"⟩).trace = [] ∧
    browserActionCount (autofill envBase ⟨0, 0, 50, "2026-02-03"⟩).trace = 0 ∧
    (autofill envBase ⟨0, 0, 50, "2026-02-03"⟩).rate.appliesToday = 50 ∧
    (autofill envTwoSteps ⟨0, 0, 49, "2026-02-03"⟩).rate.appliesToday ≤ max 49 50 := by
  have h := daily_ceiling_fatal envBase ⟨0, 0, 50, "2026-02-03"⟩ (by rfl) (by rfl)
    (by decide)
  exact ⟨h.1, h.2.1, h.2.2.1, h.2.2.2.1, h.2.2.2.2 envTwoSteps ⟨0, 0, 49, "2026-02-03"⟩⟩

/-! ### Claim C4: cooperative stop -/

/-- C4 counterexample: with the stop flag raised after the attempt
starts, the outcome observed at the first loop boundary carries
status `"warning"` with message `"Automation stopped by user."` —
the code has no distinct `cancelled` status at all (nor a
`dry_run_stop` one), so the claimed terminal status `'cancelled'`,
distinct from the warning status, does not exist. -/
theorem cancelled_status_counterexample :
    (autofill envStopped ⟨0, 0, 0, "2026-02-03"⟩).result =
      ⟨"warning", "Automation stopped by user."⟩ ∧
    (autofill envStopped ⟨0, 0, 0, "2026-02-03"⟩).result.status ≠ "cancelled" := by
  exact ⟨rfl, by decide⟩

/-- C4 amended: when the cooperative stop flag is set, the attempt
observed at the next loop boundary aborts via `InterruptedError`,
whose handler returns status `"warning"` (shared with the
submit-verification warning path), message
`"Automation stopped by user."` — not a distinct `cancelled`
status. -/
theorem stop_flag_yields_warning (env : AttemptEnv) (s : RateState) (u : String)
    (hb : env.browserRunning = true) (hj : env.jobFound = true)
    (hd : (rolled s env.today).appliesToday < 50)
    (hurl : env.jobUrl = some u) (hlink : pyIn "linkedin.com" u = true)
    (hpum : env.pageUrlMatches = true) (hstop0 : env.stopSignal 0 = false)
    (hbtn : env.easyApplyBtnFound = true)
    (hstop1 : env.stopSignal 1 = true) :
    (autofill env s).result = ⟨"warning", stopMsg⟩ := by
  obtain ⟨tr, hpre⟩ := preloop_ok_of env s u hb hj hd hurl hlink hpum hstop0 hbtn
  rw [autofill_of_preloop_ok env s _ tr hpre, loopRun_ten,
    loopIter_stop env 1 1 0 _ hstop1]

/-- Witness for the C4 amended theorem. -/
theorem stop_flag_yields_warning_witness :
    (autofill envStopped ⟨0, 0, 3, "2026-02-03"⟩).result = ⟨"warning", stopMsg⟩ :=
  stop_flag_yields_warning envStopped ⟨0, 0, 3, "2026-02-03"⟩
    "https://www.linkedin.com/jobs/view/123" (by rfl) (by rfl) (by decide) (by rfl)
    (by decide) (by rfl) (by rfl) (by rfl) (by rfl)

/-! ### Claim C5: question-bank fetches per attempt -/

/-- C5 counterexample: a single attempt whose modal shows two
filling steps completes normally but fetches the question bank
twice — once per step, not once per attempt as claimed; the fetch
happens at the top of `_fill_modal_fields`, which runs once per loop
iteration. -/
theorem bank_refetched_each_step_counterexample :
    (autofill envTwoSteps ⟨0, 0, 0, "2026-02-03"⟩).result = ⟨"success", finishMsg⟩ ∧
    (autofill envTwoSteps ⟨0, 0, 0, "2026-02-03"⟩).fillSteps = 2 ∧
    fetchCount (autofill envTwoSteps ⟨0, 0, 0, "2026-02-03"⟩).trace = 2 := by
  exact ⟨rfl, rfl, rfl⟩

/-- C5 amended: the question bank is fetched exactly once per
form-filling step — the trace of every attempt contains exactly as
many bank fetches as loop iterations that reached the filling
phase, and within one step every field resolves against that single
snapshot (the fetch at the top of `_fill_modal_fields` is the only
one). -/
theorem bank_fetched_once_per_fill_step (env : AttemptEnv) (s : RateState) :
    fetchCount (autofill env s).trace = (autofill env s).fillSteps := by
  have hp := preloop_spec env s
  unfold autofill
  rcases hpe : preloop env s with r | ⟨s1, tr⟩ <;> rw [hpe] at hp <;>
    simp only [preSpec] at hp
  · exact hp.1.trans hp.2.1.symm
  · dsimp only
    rw [fetchCount_append, hp.1, loopRun_fetch env 10 1 1 0 s1]
    omega

/-! ### Claim C9: dry runs never click submit -/

/-- C9: a dry-run attempt that reaches a step showing the terminal
submit control returns a success outcome, its trace contains no
click on the submit control, and the daily counter is unchanged
(the increment sits strictly after the dry-run early return). -/
theorem dry_run_never_submits (env : AttemptEnv) (s : RateState) (u : String)
    (hdry : env.dryRun = true)
    (hb : env.browserRunning = true) (hj : env.jobFound = true)
    (hurl : env.jobUrl = some u) (hlink : pyIn "linkedin.com" u = true)
    (hpum : env.pageUrlMatches = true) (hstop0 : env.stopSignal 0 = false)
    (hbtn : env.easyApplyBtnFound = true)
    (hdate : s.lastResetDate = env.today) (h49 : s.appliesToday < 50)
    (hstop1 : env.stopSignal 1 = false)
    (hmodal : (env.steps 1).modalPresent = true)
    (hsubmit : (env.steps 1).submitPresent = true) :
    (autofill env s).result = ⟨"success", "Dry Run: Reached Submit button."⟩ ∧
    submitClickCount (autofill env s).trace = 0 ∧
    (autofill env s).rate.appliesToday = s.appliesToday := by
  have hd : (rolled s env.today).appliesToday < 50 := by
    rw [rolled_eq_self s env.today hdate]
    exact h49
  obtain ⟨tr, hpre⟩ := preloop_ok_of env s u hb hj hd hurl hlink hpum hstop0 hbtn
  have hs1a : ((rate_limit_check s (env.now 0) env.today).2).appliesToday =
      s.appliesToday := by
    rw [rlc_snd_applies, rolled_eq_self s env.today hdate]
  have hs1d : ((rate_limit_check s (env.now 0) env.today).2).lastResetDate =
      env.today := rlc_snd_lastResetDate s (env.now 0) env.today
  have hd1 : (rolled ((rate_limit_check s (env.now 0) env.today).2)
      env.today).appliesToday < 50 := by
    rw [rolled_eq_self _ env.today hs1d]
    omega
  obtain ⟨w, hiter⟩ := loopIter_dry_submit env 1 1 0
    ((rate_limit_check s (env.now 0) env.today).2) hstop1 hd1 hdry hmodal hsubmit
  have hps := preloop_spec env s
  rw [hpre] at hps
  simp only [preSpec] at hps
  rw [autofill_of_preloop_ok env s _ tr hpre, loopRun_ten, hiter]
  dsimp only
  refine ⟨rfl, ?_, ?_⟩
  · rw [submitClickCount_append, hps.2.1, submitClickCount_append,
      submitClickCount_sleepOpt]
    simp [submitClickCount]
  · rw [rlc_snd_applies, rolled_eq_self _ env.today hs1d]
    exact hs1a

/-- Witness for C9: daily counter at 49, one dry-run attempt reaches
the submit control, returns success, clicks nothing terminal, and
the counter stays at 49. -/
theorem dry_run_never_submits_witness :
    (autofill envDrySubmit ⟨0, 0, 49, "2026-02-03"⟩).result =
      ⟨"success", "Dry Run: Reached Submit button."⟩ ∧
    submitClickCount (autofill envDrySubmit ⟨0, 0, 49, "2026-02-03"⟩).trace = 0 ∧
    (autofill envDrySubmit ⟨0, 0, 49, "2026-02-03"⟩).rate.appliesToday = 49 :=
  dry_run_never_submits envDrySubmit ⟨0, 0, 49, "2026-02-03"⟩
    "https://www.linkedin.com/jobs/view/123" (by rfl) (by rfl) (by rfl) (by rfl)
    (by decide) (by rfl) (by rfl) (by rfl) (by rfl) (by decide) (by rfl) (by rfl)
    (by rfl)

end JobEngine
